import Mathlib

/-!
Verification development for the `nordic_privatecredit_tracker` ETL pipeline
(`src/etl_pipeline.py`).  The definitions below are a shallow embedding of the
pipeline's data model and operations: the JSON response shape and the Python
dictionary/list primitives the parser uses, `parse_organisation_data`, the
chunking performed by `extract_batch_data`, `merge_with_finansinspektionen_data`,
`safe_value`, and the deduplication + bulk-upsert logic of
`bulk_upsert_companies` (including the `ON CONFLICT` update clause of the SQL
statement).  Fallible Python operations (attribute errors, index errors, key
errors) are embedded as `Except String`; the broad `try/except` blocks of the
source become explicit handling of the `Except.error` case.
-/

/-- `str.strip()` on a character list: drop whitespace from both ends.
(Defined over `List Char` rather than with `String.trim` so that concrete
instances reduce inside the kernel.) -/
def stripWsChars (l : List Char) : List Char :=
  ((l.dropWhile Char.isWhitespace).reverse.dropWhile Char.isWhitespace).reverse

/-- `str.strip()`. -/
def pyStripStr (s : String) : String :=
  String.mk (stripWsChars s.data)

/-- `str.lower()` (ASCII case folding, which covers every token the pipeline
compares). -/
def pyLowerStr (s : String) : String :=
  String.mk (s.data.map Char.toLower)

/-- `s[:n]`. -/
def takeCharsStr (n : Nat) (s : String) : String :=
  String.mk (s.data.take n)

/-- Substring containment (`pat in hay` for Python strings). -/
def charsContainsSub (hay pat : List Char) : Bool :=
  (List.range (hay.length + 1)).any (fun i => ((hay.drop i).take pat.length) == pat)

/-- Decimal digits of a positive natural, most significant first; the first
argument is fuel (structural recursion; `n` itself is enough fuel). -/
def natToCharsAux : Nat → Nat → List Char → List Char
  | 0, _, acc => acc
  | fuel + 1, m, acc =>
    if m = 0 then acc
    else natToCharsAux fuel (m / 10) (Char.ofNat (48 + m % 10) :: acc)

/-- `str(n)` for a natural number. -/
def natToDecimalString (n : Nat) : String :=
  if n = 0 then "0" else String.mk (natToCharsAux n n [])

/-- `str(i)` for an integer. -/
def intToDecimalString : Int → String
  | Int.ofNat n => natToDecimalString n
  | Int.negSucc n => "-" ++ natToDecimalString (n + 1)

/-- Value of a digit string (caller checks all characters are digits). -/
def digitsToNat (l : List Char) : Nat :=
  l.foldl (fun n c => n * 10 + (c.toNat - 48)) 0

/-- `int(s)` on a character list: an optionally signed non-empty digit
string. -/
def parseIntChars (l : List Char) : Option Int :=
  match l with
  | [] => none
  | '-' :: rest =>
    if !rest.isEmpty && rest.all Char.isDigit then some (-(digitsToNat rest : Int)) else none
  | '+' :: rest =>
    if !rest.isEmpty && rest.all Char.isDigit then some ((digitsToNat rest : Int)) else none
  | _ =>
    if l.all Char.isDigit then some ((digitsToNat l : Int)) else none

/-- JSON values as returned by `response.json()`.  Numbers are modelled as
integers (the organisation documents the parser touches carry only string,
object, array, boolean and null fields; the integer model is sufficient for
truthiness and equality-with-string-literal tests, which are the only
operations the pipeline applies to numbers). -/
inductive JValue where
  | null
  | jbool (b : Bool)
  | jnum (n : Int)
  | jstr (s : String)
  | arr (elems : List JValue)
  | obj (fields : List (String × JValue))

/-- First binding of a key in a Python dict, modelled as an association list. -/
def pyLookup (fields : List (String × JValue)) (k : String) : Option JValue :=
  (fields.find? (fun kv => kv.1 == k)).map (fun kv => kv.2)

/-- `d.get(k, default)`: returns the stored value (which may be `null`) when
the key is present, the default otherwise; raises `AttributeError` when the
receiver is not a dict. -/
def pyGetD (v : JValue) (k : String) (d : JValue) : Except String JValue :=
  match v with
  | .obj fs => .ok ((pyLookup fs k).getD d)
  | _ => .error "AttributeError: object has no attribute get"

/-- Python truthiness: `None`, `False`, `0`, `""`, `[]`, and the empty dict are
falsy; everything else is truthy. -/
def pyTruthy : JValue → Bool
  | .null => false
  | .jbool b => b
  | .jnum n => n != 0
  | .jstr s => s != ""
  | .arr es => !es.isEmpty
  | .obj fs => !fs.isEmpty

/-- `k in v`: key membership for dicts, element membership for lists,
substring test for strings; raises `TypeError` otherwise. -/
def pyContainsKey (v : JValue) (k : String) : Except String Bool :=
  match v with
  | .obj fs => .ok (fs.any (fun kv => kv.1 == k))
  | .arr es => .ok (es.any (fun e => match e with | .jstr t => t == k | _ => false))
  | .jstr s => .ok (charsContainsSub s.data k.data)
  | _ => .error "TypeError: argument is not iterable"

/-- `v[0]`: first element of a list, first character of a string; raises
otherwise (including `IndexError` on an empty list). -/
def pyIndexZero (v : JValue) : Except String JValue :=
  match v with
  | .arr (e :: _) => .ok e
  | .arr [] => .error "IndexError: list index out of range"
  | .jstr s => if s == "" then .error "IndexError" else .ok (.jstr (takeCharsStr 1 s))
  | _ => .error "TypeError: object is not subscriptable"

/-- `v.strip()`: whitespace trimming, defined only on strings. -/
def pyStripWs (v : JValue) : Except String String :=
  match v with
  | .jstr s => .ok (pyStripStr s)
  | _ => .error "AttributeError: object has no attribute strip"

/-- Python `v == s` against a string literal: true exactly for the equal
string (values of any other JSON type compare unequal to a string). -/
def pyEqStr (v : JValue) (s : String) : Bool :=
  match v with
  | .jstr t => t == s
  | _ => false

/-- Iteration over a JSON value (`for x in v`): list elements, string
characters, dict keys; raises otherwise. -/
def pyIterate : JValue → Except String (List JValue)
  | .arr es => .ok es
  | .jstr s => .ok (s.toList.map (fun c => .jstr (String.mk [c])))
  | .obj fs => .ok (fs.map (fun kv => .jstr kv.1))
  | _ => .error "TypeError: object is not iterable"

/-- `v is not None`. -/
def pyIsNotNone : JValue → Bool
  | .null => false
  | _ => true

/-- The outcome of `query_single_organisation`: the three dictionary shapes the
fetcher can return (`status` of `"success"`, `"error"`, or `"exception"`). -/
inductive FetchOutcome where
  | success (orgNumber : String) (data : JValue)
  | httpError (orgNumber : String) (code : Nat) (message : String)
  | exc (orgNumber : String) (message : String)

/-- The `org_number` field present in every fetcher outcome dictionary. -/
def outcomeOrgNumber : FetchOutcome → String
  | .success n _ => n
  | .httpError n _ _ => n
  | .exc n _ => n

/-- The flat dictionary built by `parse_organisation_data`.  `none` means the
key is absent from the Python dict; `some .null` means it is present with
value `None`. -/
structure ParsedRecord where
  org_number : String
  api_status : String
  error : Option String := none
  query_timestamp : Option String := none
  is_deregistered : Option Bool := none
  legal_form_code : Option JValue := none
  legal_form_description : Option JValue := none
  organisation_name : Option JValue := none
  street_address : Option JValue := none
  city : Option JValue := none
  postal_code : Option JValue := none
  country : Option JValue := none
  sni_code : Option JValue := none
  sni_description : Option JValue := none
  registration_date : Option JValue := none
  is_active : Option Bool := none

/-- The legal-form block: `juridisk_form = org.get("juridiskForm", {})` then
unconditional extraction of `kod` and `klartext`. -/
def withLegalForm (org : JValue) (p : ParsedRecord) : Except String ParsedRecord :=
  match pyGetD org "juridiskForm" (.obj []) with
  | .error e => .error e
  | .ok juridiskForm =>
    match pyGetD juridiskForm "kod" .null with
    | .error e => .error e
    | .ok kod =>
      match pyGetD juridiskForm "klartext" .null with
      | .error e => .error e
      | .ok klartext =>
        .ok { p with legal_form_code := some kod, legal_form_description := some klartext }

/-- The organisation-name block: guarded by
`if org_names_data and "organisationsnamnLista" in org_names_data` and
`if namn_lista`, then `namn_lista[0].get("namn")`. -/
def withNames (org : JValue) (p : ParsedRecord) : Except String ParsedRecord :=
  match pyGetD org "organisationsnamn" (.obj []) with
  | .error e => .error e
  | .ok orgNamesData =>
    match (if pyTruthy orgNamesData then pyContainsKey orgNamesData "organisationsnamnLista" else .ok false) with
    | .error e => .error e
    | .ok cond =>
      if cond then
        match pyGetD orgNamesData "organisationsnamnLista" (.arr []) with
        | .error e => .error e
        | .ok namnLista =>
          if pyTruthy namnLista then
            match pyIndexZero namnLista with
            | .error e => .error e
            | .ok firstEntry =>
              match pyGetD firstEntry "namn" .null with
              | .error e => .error e
              | .ok namn => .ok { p with organisation_name := some namn }
          else .ok p
      else .ok p

/-- The address block: guarded by
`if address_data and "postadress" in address_data`, then four `get` calls on
the nested `postadress` dict. -/
def withAddress (org : JValue) (p : ParsedRecord) : Except String ParsedRecord :=
  match pyGetD org "postadressOrganisation" (.obj []) with
  | .error e => .error e
  | .ok addressData =>
    match (if pyTruthy addressData then pyContainsKey addressData "postadress" else .ok false) with
    | .error e => .error e
    | .ok cond =>
      if cond then
        match pyGetD addressData "postadress" (.obj []) with
        | .error e => .error e
        | .ok address =>
          match pyGetD address "utdelningsadress" .null with
          | .error e => .error e
          | .ok street =>
            match pyGetD address "postort" .null with
            | .error e => .error e
            | .ok ort =>
              match pyGetD address "postnummer" .null with
              | .error e => .error e
              | .ok nummer =>
                match pyGetD address "land" .null with
                | .error e => .error e
                | .ok land =>
                  .ok { p with street_address := some street, city := some ort,
                               postal_code := some nummer, country := some land }
      else .ok p

/-- `next((sni for sni in sni_list if sni.get("kod", "").strip() and
sni.get("kod") != "     "), None)`: the first element whose `kod` is truthy
after stripping and is not the five-space placeholder; evaluating the
predicate can raise (non-dict element, non-string `kod`). -/
def findMainSni : List JValue → Except String (Option JValue)
  | [] => .ok none
  | sni :: rest =>
    match pyGetD sni "kod" (.jstr "") with
    | .error e => .error e
    | .ok kodDefaulted =>
      match pyStripWs kodDefaulted with
      | .error e => .error e
      | .ok stripped =>
        if stripped == "" then findMainSni rest
        else
          match pyGetD sni "kod" .null with
          | .error e => .error e
          | .ok kod =>
            if pyEqStr kod "     " then findMainSni rest else .ok (some sni)

/-- The SNI block: guarded by
`if naringsgren_data and "sni" in naringsgren_data` and `if sni_list`; when a
main SNI entry is found and truthy, its `kod` and `klartext` are extracted. -/
def withSni (org : JValue) (p : ParsedRecord) : Except String ParsedRecord :=
  match pyGetD org "naringsgrenOrganisation" (.obj []) with
  | .error e => .error e
  | .ok naringsgrenData =>
    match (if pyTruthy naringsgrenData then pyContainsKey naringsgrenData "sni" else .ok false) with
    | .error e => .error e
    | .ok cond =>
      if cond then
        match pyGetD naringsgrenData "sni" (.arr []) with
        | .error e => .error e
        | .ok sniListVal =>
          if pyTruthy sniListVal then
            match pyIterate sniListVal with
            | .error e => .error e
            | .ok entries =>
              match findMainSni entries with
              | .error e => .error e
              | .ok none => .ok p
              | .ok (some mainSni) =>
                if pyTruthy mainSni then
                  match pyGetD mainSni "kod" .null with
                  | .error e => .error e
                  | .ok kod =>
                    match pyGetD mainSni "klartext" .null with
                    | .error e => .error e
                    | .ok klartext =>
                      .ok { p with sni_code := some kod, sni_description := some klartext }
                else .ok p
          else .ok p
      else .ok p

/-- The registration-date and activity block: `organisationsdatum` /
`registreringsdatum`, and `is_active` true iff the `verksamOrganisation` code
equals the literal `"JA"`. -/
def withRegistrationAndActivity (org : JValue) (p : ParsedRecord) : Except String ParsedRecord :=
  match pyGetD org "organisationsdatum" (.obj []) with
  | .error e => .error e
  | .ok orgDatum =>
    match pyGetD orgDatum "registreringsdatum" .null with
    | .error e => .error e
    | .ok regdat =>
      match pyGetD org "verksamOrganisation" (.obj []) with
      | .error e => .error e
      | .ok verksamOrg =>
        match pyGetD verksamOrg "kod" .null with
        | .error e => .error e
        | .ok verksamKod =>
          .ok { p with registration_date := some regdat,
                       is_active := some (pyEqStr verksamKod "JA") }

/-- The body of the `try` block of `parse_organisation_data` on a `"success"`
outcome: the `no_data` early return, `organisationer[0]`, and the field
blocks in source order.  `now` stands for `pd.Timestamp.now().isoformat()`. -/
def extractOrganisation (orgNumber : String) (data : JValue) (now : String) :
    Except String ParsedRecord :=
  match pyGetD data "organisationer" (.arr []) with
  | .error e => .error e
  | .ok organisations =>
    if !pyTruthy organisations then
      .ok { org_number := orgNumber, api_status := "no_data",
            error := some "No organisation data returned" }
    else
      match pyIndexZero organisations with
      | .error e => .error e
      | .ok org =>
        match pyGetD org "avregistreradOrganisation" .null with
        | .error e => .error e
        | .ok avreg =>
          match withLegalForm org
              { org_number := orgNumber, api_status := "success",
                query_timestamp := some now,
                is_deregistered := some (pyIsNotNone avreg) } with
          | .error e => .error e
          | .ok p1 =>
            match withNames org p1 with
            | .error e => .error e
            | .ok p2 =>
              match withAddress org p2 with
              | .error e => .error e
              | .ok p3 =>
                match withSni org p3 with
                | .error e => .error e
                | .ok p4 => withRegistrationAndActivity org p4

/-- `parse_organisation_data`: non-success outcomes are passed through with
their status and error message; for success outcomes the extraction runs under
`try/except`, any raised exception becoming a `parse_error` record with the
message truncated to 100 characters. -/
def parseOrganisationData (outcome : FetchOutcome) (now : String) : ParsedRecord :=
  match outcome with
  | .httpError n _ msg => { org_number := n, api_status := "error", error := some msg }
  | .exc n msg => { org_number := n, api_status := "exception", error := some msg }
  | .success n data =>
    match extractOrganisation n data now with
    | .ok p => p
    | .error e =>
      { org_number := n, api_status := "parse_error",
        error := some ("Parse error: " ++ takeCharsStr 100 e) }

/-- The five status tags a parsed record can carry. -/
def statusTags : List String := ["success", "no_data", "parse_error", "error", "exception"]

/-- Modelled from the spec's words for claim C8 (the predicate the spec
describes): an SNI entry whose code is present, a string, and non-blank after
stripping whitespace. -/
def specSniGood (sni : JValue) : Bool :=
  match sni with
  | .obj fs =>
    match pyLookup fs "kod" with
    | some (.jstr s) => pyStripStr s != ""
    | _ => false
  | _ => false

/-- Well-formedness of an SNI entry under which the selection predicate cannot
raise: the entry is a dict and its `kod` binding, if any, is a string. -/
def WFSni (sni : JValue) : Prop :=
  ∃ fs, sni = JValue.obj fs ∧
    (pyLookup fs "kod" = none ∨ ∃ s, pyLookup fs "kod" = some (JValue.jstr s))

set_option linter.unusedVariables false in
/-- The slicing loop of `extract_batch_data`:
`[org_numbers[i:i + batch_size] for i in range(0, total_count, batch_size)]`.
The `b = 0` case cannot arise (the caller passes `max(1, ...)`; Python's
`range` would reject a zero step). -/
def chunkList (b : Nat) (l : List α) : List (List α) :=
  if h : l.isEmpty || b == 0 then []
  else
    l.take b :: chunkList b (l.drop b)
termination_by l.length
decreasing_by
  simp only [Bool.or_eq_true, List.isEmpty_iff, beq_iff_eq] at h
  push_neg at h
  have h1 : l ≠ [] := h.1
  have h2 : b ≠ 0 := h.2
  have : 0 < l.length := List.length_pos.mpr h1
  simp only [List.length_drop]
  omega

/-- The batch partitioning of `extract_batch_data`:
`batch_size = max(1, total_count // max_workers)` followed by the slicing
loop. -/
def extractBatchChunks (orgNumbers : List String) (maxWorkers : Nat) : List (List String) :=
  let batchSize := max 1 (orgNumbers.length / maxWorkers)
  chunkList batchSize orgNumbers

/-- One row of the Finansinspektionen CSV (the secondary dataset): the raw
`CorporateID_Clean` cell kept as the CSV text, plus the descriptive `Category`
column that the load step later reads. -/
structure FiRow where
  corporateId : String
  category : Option String
deriving DecidableEq

/-- One row of the fetched (Bolagsverket) dataframe as seen by the merge: its
`org_number` column and its `api_status` column (the merge logic touches no
other fetched column; the remaining columns ride along unchanged). -/
structure BRow where
  org_number : String
  api_status : Option String
deriving DecidableEq

/-- One row of the merged dataframe: the normalized secondary key, the
secondary descriptive column, and either the matched fetched row
(`some`, with its `org_number` already normalized in place) or `none` for a
secondary-only row whose fetched columns are all NaN. -/
structure MergedRow where
  corporateIdClean : String
  category : Option String
  fetched : Option BRow
deriving DecidableEq

/-- `pd.to_numeric(cell, errors="coerce")` restricted to the cell shapes the
CSV can hold: an optionally signed integer literal (with surrounding
whitespace) parses; a `digits.digits` decimal literal parses to its integer
part (matching the later `astype(int)` truncation); everything else coerces to
`NaN` (`none`).  Scientific notation is not modelled. -/
def pyToNumericInt (s : String) : Option Int :=
  let t := stripWsChars s.data
  match parseIntChars t with
  | some n => some n
  | none =>
    match t.span (fun c => c != '.') with
    | (intPart, sep) =>
      match sep with
      | '.' :: frac =>
        if !frac.isEmpty && frac.all Char.isDigit then parseIntChars intPart else none
      | _ => none

/-- The secondary-key normalization of `merge_with_finansinspektionen_data`:
`pd.to_numeric(fi_df["CorporateID_Clean"], errors="coerce").fillna(0).astype(int).astype(str)`.
A non-numeric cell (for instance a hyphenated identifier) becomes `"0"`. -/
def fiNormalize (s : String) : String :=
  match pyToNumericInt s with
  | some n => intToDecimalString n
  | none => "0"

/-- The fetched-side normalization:
`bolagsverket_df["org_number"].astype(str).str.replace("-", "").str.strip()`. -/
def bNormalize (s : String) : String :=
  String.mk (stripWsChars (s.data.filter (fun c => c != '-')))

/-- Modelled from the spec's words for claim C1: the normalization the spec
prescribes for both join columns — strip separators (hyphens) and whitespace. -/
def specStripNorm (s : String) : String :=
  String.mk (stripWsChars (s.data.filter (fun c => c != '-')))

/-- The `pd.merge(..., left_on="CorporateID_Clean", right_on="org_number",
how="left")` call, after both in-place normalizations: each secondary row in
order, paired with every fetched row whose normalized `org_number` equals its
normalized key (in fetched order), or kept alone with NaN fetched columns when
no fetched row matches. -/
def mergeRows (fi : List FiRow) (b : List BRow) : List MergedRow :=
  fi.flatMap (fun f =>
    match (b.map (fun r => { r with org_number := bNormalize r.org_number })).filter
        (fun r => r.org_number == fiNormalize f.corporateId) with
    | [] => [{ corporateIdClean := fiNormalize f.corporateId, category := f.category,
               fetched := none }]
    | ms => ms.map (fun r => { corporateIdClean := fiNormalize f.corporateId,
                               category := f.category, fetched := some r }))

/-- The secondary dataset as loaded by `pd.read_csv`: `hasKeyColumn` records
whether the `CorporateID_Clean` column exists (its absence makes
`fi_df["CorporateID_Clean"]` raise `KeyError` before the fetched dataframe is
touched). -/
structure FiTable where
  hasKeyColumn : Bool
  rows : List FiRow

/-- The two possible shapes of the value `merge_with_finansinspektionen_data`
returns: the merged dataframe, or (from the `except` branch) the fetched
dataframe passed through. -/
inductive MergeResult where
  | merged (rows : List MergedRow)
  | fallback (rows : List BRow)
deriving DecidableEq

/-- `merge_with_finansinspektionen_data`: reading the CSV and the whole merge
run under `try/except Exception`; a read failure (modelled as the `Except`
argument) or a missing key column returns the fetched dataframe unchanged. -/
def mergeWithFinansinspektionenData (fiLoad : Except String FiTable) (bdf : List BRow) :
    MergeResult :=
  match fiLoad with
  | .error _ => .fallback bdf
  | .ok t =>
    if t.hasKeyColumn then .merged (mergeRows t.rows bdf)
    else .fallback bdf

/-- A dataframe cell as seen by `safe_value`: NaN/None, a string, or a
boolean. -/
inductive Cell where
  | na
  | cstr (s : String)
  | cbool (b : Bool)
deriving DecidableEq

/-- `safe_value(value, "str")`: NaN/None and the string `"nan"`
(case-insensitive) become `None`; otherwise `str(value).strip()`, with an
empty result becoming `None`. -/
def safeValueStr (v : Cell) : Option String :=
  match v with
  | .na => none
  | .cstr s =>
    if pyLowerStr s == "nan" then none
    else
      let r := pyStripStr s
      if r == "" then none else some r
  | .cbool b => some (if b then "True" else "False")

/-- `safe_value(value, "bool")`: NaN/None and `"nan"` become `None`; literal
booleans pass through; strings map to membership in the affirmative set
`["true", "1", "yes", "ja", "y"]` (case-insensitive). -/
def safeValueBool (v : Cell) : Option Bool :=
  match v with
  | .na => none
  | .cstr s =>
    if pyLowerStr s == "nan" then none
    else some (["true", "1", "yes", "ja", "y"].contains (pyLowerStr s))
  | .cbool b => some b

/-- The `registration_date` handling of `bulk_upsert_companies`: kept (and cut
to its first 10 characters) only when the cell is a string of length at least
10; otherwise `None`. -/
def regDateValue (v : Cell) : Option String :=
  match v with
  | .cstr s => if s.data.length ≥ 10 then some (takeCharsStr 10 s) else none
  | _ => none

/-- `pd.to_datetime(cell)` guarded by `pd.notna`: `None` for NaN, otherwise
the timestamp (kept abstract as its string). -/
def queryTimestampValue (v : Cell) : Option String :=
  match v with
  | .na => none
  | .cstr s => some s
  | .cbool b => some (if b then "True" else "False")

/-- One row of the dataframe handed to `bulk_upsert_companies` (the merged
dataframe): the `CorporateID_Clean` key (always a string after the merge) and
the cells the upsert reads via `row.get(...)`. -/
structure DFRow where
  corporateIdClean : String
  organisation_name : Cell := .na
  category : Cell := .na
  api_status : Cell := .na
  is_active : Cell := .na
  is_deregistered : Cell := .na
  registration_date : Cell := .na
  street_address : Cell := .na
  city : Cell := .na
  postal_code : Cell := .na
  country : Cell := .na
  sni_code : Cell := .na
  sni_description : Cell := .na
  legal_form_code : Cell := .na
  legal_form_description : Cell := .na
  query_timestamp : Cell := .na
deriving DecidableEq

/-- `df.drop_duplicates(subset=["CorporateID_Clean"], keep="first")`: keep a
row exactly when its key has not been seen earlier. -/
def dropDupAux (seen : List String) : List DFRow → List DFRow
  | [] => []
  | r :: rs =>
    if seen.contains r.corporateIdClean then dropDupAux seen rs
    else r :: dropDupAux (r.corporateIdClean :: seen) rs

/-- The deduplication step of `bulk_upsert_companies`. -/
def dropDupFirst (df : List DFRow) : List DFRow :=
  dropDupAux [] df

/-- `duplicate_count = len(df) - len(df_clean)`. -/
def duplicatesRemovedCount (df : List DFRow) : Nat :=
  df.length - (dropDupFirst df).length

/-- The 16-column tuple built per cleaned row (`row_data` in
`bulk_upsert_companies`), i.e. the `VALUES` row of the insert. -/
structure InsertRow where
  corporate_id : String
  name : Option String
  category : Option String
  api_status : Option String
  is_active : Option Bool
  is_deregistered : Option Bool
  registration_date : Option String
  street_address : Option String
  city : Option String
  postal_code : Option String
  country : Option String
  sni_code : Option String
  sni_description : Option String
  legal_form_code : Option String
  legal_form_description : Option String
  query_timestamp : Option String
deriving DecidableEq

/-- The per-row data preparation of `bulk_upsert_companies`. -/
def toInsertRow (r : DFRow) : InsertRow :=
  { corporate_id := r.corporateIdClean
    name := safeValueStr r.organisation_name
    category := safeValueStr r.category
    api_status := safeValueStr r.api_status
    is_active := safeValueBool r.is_active
    is_deregistered := safeValueBool r.is_deregistered
    registration_date := regDateValue r.registration_date
    street_address := safeValueStr r.street_address
    city := safeValueStr r.city
    postal_code := safeValueStr r.postal_code
    country := safeValueStr r.country
    sni_code := safeValueStr r.sni_code
    sni_description := safeValueStr r.sni_description
    legal_form_code := safeValueStr r.legal_form_code
    legal_form_description := safeValueStr r.legal_form_description
    query_timestamp := queryTimestampValue r.query_timestamp }

/-- A persisted row of the `companies` table, with the `created_at` /
`updated_at` timestamps (timestamps are modelled as naturals). -/
structure CompanyRow where
  corporate_id : String
  name : Option String
  category : Option String
  api_status : Option String
  is_active : Option Bool
  is_deregistered : Option Bool
  registration_date : Option String
  street_address : Option String
  city : Option String
  postal_code : Option String
  country : Option String
  sni_code : Option String
  sni_description : Option String
  legal_form_code : Option String
  legal_form_description : Option String
  query_timestamp : Option String
  created_at : Nat
  updated_at : Nat
deriving DecidableEq

/-- The keys (corporate ids) of a table state. -/
def tableKeys (table : List CompanyRow) : List String :=
  table.map (fun row => row.corporate_id)

/-- The `INSERT` half of the upsert: a fresh row with both timestamps set to
the statement's `CURRENT_TIMESTAMP` (the column defaults). -/
def insertNewRow (now : Nat) (r : InsertRow) : CompanyRow :=
  { corporate_id := r.corporate_id, name := r.name, category := r.category,
    api_status := r.api_status, is_active := r.is_active,
    is_deregistered := r.is_deregistered, registration_date := r.registration_date,
    street_address := r.street_address, city := r.city, postal_code := r.postal_code,
    country := r.country, sni_code := r.sni_code, sni_description := r.sni_description,
    legal_form_code := r.legal_form_code, legal_form_description := r.legal_form_description,
    query_timestamp := r.query_timestamp, created_at := now, updated_at := now }

/-- The `ON CONFLICT (corporate_id) DO UPDATE SET` clause: only `name`,
`category`, `api_status`, `is_active` are overwritten from the excluded row,
and `updated_at` is set to `CURRENT_TIMESTAMP`; every other column of the
existing row is kept. -/
def applyConflictUpdate (now : Nat) (old : CompanyRow) (r : InsertRow) : CompanyRow :=
  { old with name := r.name, category := r.category, api_status := r.api_status,
             is_active := r.is_active, updated_at := now }

/-- The per-row effect of the conflict clause on the whole table: the row
whose `corporate_id` matches the incoming row is updated, every other row is
left alone. -/
def conflictMap (now : Nat) (r : InsertRow) (old : CompanyRow) : CompanyRow :=
  if old.corporate_id == r.corporate_id then applyConflictUpdate now old r else old

/-- The effect of upserting a single `VALUES` row: update the row with the
conflicting unique `corporate_id` when one exists, append a fresh row
otherwise. -/
def upsertOne (now : Nat) (table : List CompanyRow) (r : InsertRow) : List CompanyRow :=
  if (tableKeys table).contains r.corporate_id then
    table.map (conflictMap now r)
  else table ++ [insertNewRow now r]

/-- The table state after `execute_values` runs the upsert statement over all
prepared rows. -/
def bulkUpsertTable (now : Nat) (table : List CompanyRow) (df : List DFRow) :
    List CompanyRow :=
  ((dropDupFirst df).map toInsertRow).foldl (upsertOne now) table

/-- The dictionary `bulk_upsert_companies` returns:
`(processed, duplicates_removed)`. -/
def bulkUpsertCounts (df : List DFRow) : Nat × Nat :=
  ((dropDupFirst df).length, duplicatesRemovedCount df)

/-- A persisted row with its `updated_at` column masked, for stating what is
preserved across a re-run. -/
def stripUpdatedAt (row : CompanyRow) : CompanyRow :=
  { row with updated_at := 0 }

/-- Program counter of one thread executing `get_access_token`:
`idle` (not yet called), `wantLock` (blocked on `with self.token_lock`),
`haveLock` (inside the critical section, about to evaluate the cache check),
`refreshing` (the `requests.post` credential exchange is in flight, lock still
held), `finished` (returned a token). -/
inductive TPC where
  | idle
  | wantLock
  | haveLock
  | refreshing
  | finished
deriving DecidableEq

/-- Shared state of the extractor for `n` worker threads: who holds
`token_lock`, whether `self.token`/`self.token_expiry` currently hold a valid
unexpired credential, how many credential-exchange requests have been issued,
and each thread's position in `get_access_token`.  (Time is abstracted over
the scenario: no cached credential expires while the calls run.) -/
structure TMState (n : Nat) where
  lockHolder : Option (Fin n)
  tokenValid : Bool
  requests : Nat
  pc : Fin n → TPC

/-- Interleaved small-step semantics of concurrent `get_access_token` calls.
`enter` is the call, `lock` acquires the free mutex, `hit` is the cached-token
early return (check true), `miss` starts the credential exchange (check
false), `refreshDone` caches the fresh token, releases the lock and
returns. -/
inductive TMStep {n : Nat} : TMState n → TMState n → Prop
  | enter (s : TMState n) (i : Fin n) (h : s.pc i = TPC.idle) :
      TMStep s { s with pc := Function.update s.pc i TPC.wantLock }
  | lock (s : TMState n) (i : Fin n) (h : s.pc i = TPC.wantLock)
      (hl : s.lockHolder = none) :
      TMStep s { s with lockHolder := some i, pc := Function.update s.pc i TPC.haveLock }
  | hit (s : TMState n) (i : Fin n) (h : s.pc i = TPC.haveLock)
      (hv : s.tokenValid = true) :
      TMStep s { s with lockHolder := none, pc := Function.update s.pc i TPC.finished }
  | miss (s : TMState n) (i : Fin n) (h : s.pc i = TPC.haveLock)
      (hv : s.tokenValid = false) :
      TMStep s { s with requests := s.requests + 1,
                        pc := Function.update s.pc i TPC.refreshing }
  | refreshDone (s : TMState n) (i : Fin n) (h : s.pc i = TPC.refreshing) :
      TMStep s { s with tokenValid := true, lockHolder := none,
                        pc := Function.update s.pc i TPC.finished }

/-- Initial state of the scenario of claim C3: no valid cached credential, the
lock free, no request issued, every thread about to call. -/
def tmInit (n : Nat) : TMState n :=
  { lockHolder := none, tokenValid := false, requests := 0, pc := fun _ => TPC.idle }

/-- States reachable by some interleaving of the concurrent calls. -/
def TMReachable (n : Nat) (s : TMState n) : Prop :=
  Relation.ReflTransGen TMStep (tmInit n) s

/-- Inductive invariant of the token manager: (a) a thread inside the
critical section or mid-refresh holds the lock; (b) a finished thread has
seen a valid token; (c) the request counter is 0 with no token and nobody
refreshing, or 1 with the token cached and nobody refreshing, or 1 with the
refresh still in flight. -/
def TMInv {n : Nat} (s : TMState n) : Prop :=
  (∀ i, (s.pc i = TPC.haveLock ∨ s.pc i = TPC.refreshing) → s.lockHolder = some i)
  ∧ (∀ i, s.pc i = TPC.finished → s.tokenValid = true)
  ∧ ((s.requests = 0 ∧ s.tokenValid = false ∧ ∀ i, s.pc i ≠ TPC.refreshing)
      ∨ (s.requests = 1 ∧ s.tokenValid = true ∧ ∀ i, s.pc i ≠ TPC.refreshing)
      ∨ (s.requests = 1 ∧ s.tokenValid = false ∧ ∃ i, s.pc i = TPC.refreshing))

/-- A concrete interleaving of two concurrent `get_access_token` calls:
thread 0 enters. -/
def tmA1 : TMState 2 :=
  { tmInit 2 with pc := Function.update (tmInit 2).pc 0 TPC.wantLock }

/-- Thread 0 takes the lock. -/
def tmA2 : TMState 2 :=
  { tmA1 with lockHolder := some 0, pc := Function.update tmA1.pc 0 TPC.haveLock }

/-- Thread 0 misses the cache and issues the credential exchange. -/
def tmA3 : TMState 2 :=
  { tmA2 with requests := tmA2.requests + 1, pc := Function.update tmA2.pc 0 TPC.refreshing }

/-- Thread 0 caches the token, releases the lock and returns. -/
def tmA4 : TMState 2 :=
  { tmA3 with tokenValid := true, lockHolder := none,
              pc := Function.update tmA3.pc 0 TPC.finished }

/-- Thread 1 enters. -/
def tmA5 : TMState 2 :=
  { tmA4 with pc := Function.update tmA4.pc 1 TPC.wantLock }

/-- Thread 1 takes the lock. -/
def tmA6 : TMState 2 :=
  { tmA5 with lockHolder := some 1, pc := Function.update tmA5.pc 1 TPC.haveLock }

/-- Thread 1 hits the cached token and returns without a second exchange. -/
def tmA7 : TMState 2 :=
  { tmA6 with lockHolder := none, pc := Function.update tmA6.pc 1 TPC.finished }

/-- A sample input list of ten identifiers, used to instantiate the batch
partitioning claims. -/
def sampleTenIds : List String :=
  ["o01", "o02", "o03", "o04", "o05", "o06", "o07", "o08", "o09", "o10"]

/-- The two-row dataframe of the spec's dedup scenario: two rows sharing one
normalized identifier. -/
def sampleDupDf : List DFRow :=
  [{ corporateIdClean := "12345678" },
   { corporateIdClean := "12345678", organisation_name := Cell.cstr "B" }]

/-- The SNI list of the spec's classification-selection scenario: a blank
placeholder entry followed by the real code. -/
def sampleSniList : List JValue :=
  [JValue.obj [("kod", JValue.jstr "   ")],
   JValue.obj [("kod", JValue.jstr "62.01"), ("klartext", JValue.jstr "X")]]

/-- A success payload whose single organisation carries the sample SNI
list. -/
def sampleSniData : JValue :=
  JValue.obj [("organisationer", JValue.arr
    [JValue.obj [("naringsgrenOrganisation", JValue.obj [("sni", JValue.arr sampleSniList)])]])]

/-- A persisted row used to instantiate the upsert claims. -/
def sampleOldRow : CompanyRow :=
  { corporate_id := "5560001234", name := some "Old Name", category := none,
    api_status := some "success", is_active := some true, is_deregistered := some false,
    registration_date := some "2020-01-01", street_address := none, city := some "Stockholm",
    postal_code := none, country := none, sni_code := none, sni_description := none,
    legal_form_code := none, legal_form_description := none, query_timestamp := none,
    created_at := 5, updated_at := 5 }

/-- A conflicting prepared row used to instantiate the upsert claims. -/
def sampleInsertRow : InsertRow :=
  { corporate_id := "5560001234", name := some "New Name", category := some "Bank",
    api_status := some "success", is_active := some false, is_deregistered := some true,
    registration_date := some "2021-02-02", street_address := none, city := some "Oslo",
    postal_code := none, country := none, sni_code := none, sni_description := none,
    legal_form_code := none, legal_form_description := none, query_timestamp := none }

/-- A one-row input dataframe used to instantiate the load-step claims. -/
def sampleLoadDf : List DFRow :=
  [{ corporateIdClean := "5560001234", organisation_name := Cell.cstr "Acme AB" }]

/-- The net effect of one upsert pass on a pre-existing row: it is updated by
the first prepared row sharing its key, if any. Used to characterise the
folded bulk upsert. -/
def resolveWith (now : Nat) (rows : List InsertRow) (old : CompanyRow) : CompanyRow :=
  match rows.find? (fun r => r.corporate_id == old.corporate_id) with
  | some r => applyConflictUpdate now old r
  | none => old


theorem chunkList_nil (b : Nat) : chunkList b ([] : List α) = [] := by
  rw [chunkList]
  simp

theorem chunkList_flatten (b : Nat) (hb : 1 ≤ b) (l : List α) :
    (chunkList b l).flatten = l := by
  induction l using chunkList.induct b with
  | case1 l h =>
    simp only [Bool.or_eq_true, List.isEmpty_iff, beq_iff_eq] at h
    rcases h with h | h
    · rw [h, chunkList_nil]
      rfl
    · omega
  | case2 l h ih =>
    rw [chunkList, dif_neg h]
    rw [List.flatten_cons, ih]
    exact List.take_append_drop b l

theorem chunkList_length_eq (b : Nat) (hb : 1 ≤ b) (l : List α) :
    (chunkList b l).length = (l.length + b - 1) / b := by
  induction l using chunkList.induct b with
  | case1 l h =>
    simp only [Bool.or_eq_true, List.isEmpty_iff, beq_iff_eq] at h
    rcases h with h | h
    · rw [h, chunkList_nil]
      simp only [List.length_nil, List.length]
      rw [Nat.div_eq_of_lt (by omega)]
    · omega
  | case2 l h ih =>
    rw [chunkList, dif_neg h]
    simp only [Bool.or_eq_true, List.isEmpty_iff, beq_iff_eq, not_or] at h
    have hm : 1 ≤ l.length := by
      have := List.length_pos.mpr h.1
      omega
    have key : l.length + b - 1 = (l.length - 1) + b := by omega
    have key2 : (l.drop b).length + b - 1 = (l.length - b) + b - 1 := by
      rw [List.length_drop]
    rw [List.length_cons, ih, key, Nat.add_div_right _ (by omega)]
    rcases le_or_lt b l.length with hbl | hbl
    · have : (l.drop b).length + b - 1 = l.length - 1 := by
        rw [List.length_drop]
        omega
      rw [this]
    · have : (l.drop b).length + b - 1 = b - 1 := by
        rw [List.length_drop]
        omega
      rw [this, Nat.div_eq_of_lt (by omega)]
      have : (l.length - 1) / b = 0 := Nat.div_eq_of_lt (by omega)
      rw [this]

theorem chunkList_mem_sizes (b : Nat) (hb : 1 ≤ b) (l : List α) :
    ∀ c ∈ chunkList b l, 0 < c.length ∧ c.length ≤ b := by
  induction l using chunkList.induct b with
  | case1 l h =>
    simp only [Bool.or_eq_true, List.isEmpty_iff, beq_iff_eq] at h
    rcases h with h | h
    · rw [h, chunkList_nil]
      intro c hc
      cases hc
    · omega
  | case2 l h ih =>
    rw [chunkList, dif_neg h]
    simp only [Bool.or_eq_true, List.isEmpty_iff, beq_iff_eq, not_or] at h
    intro c hc
    rcases List.mem_cons.mp hc with rfl | hc
    · have hm : 1 ≤ l.length := by
        have := List.length_pos.mpr h.1
        omega
      constructor
      · simp only [List.length_take]
        omega
      · simp only [List.length_take]
        omega
    · exact ih c hc

theorem chunkList_dropLast_sizes (b : Nat) (hb : 1 ≤ b) (l : List α) :
    ∀ c ∈ (chunkList b l).dropLast, c.length = b := by
  induction l using chunkList.induct b with
  | case1 l h =>
    simp only [Bool.or_eq_true, List.isEmpty_iff, beq_iff_eq] at h
    rcases h with h | h
    · rw [h, chunkList_nil]
      intro c hc
      cases hc
    · omega
  | case2 l h ih =>
    rw [chunkList, dif_neg h]
    simp only [Bool.or_eq_true, List.isEmpty_iff, beq_iff_eq, not_or] at h
    intro c hc
    by_cases hrest : chunkList b (l.drop b) = []
    · rw [hrest] at hc
      cases hc
    · rw [List.dropLast_cons_of_ne_nil hrest] at hc
      rcases List.mem_cons.mp hc with rfl | hc
      · have hdrop : l.drop b ≠ [] := by
          intro hd
          rw [hd, chunkList_nil] at hrest
          exact hrest rfl
        have : b < l.length := by
          by_contra hle
          push_neg at hle
          exact hdrop (List.drop_eq_nil_of_le hle)
        simp only [List.length_take]
        omega
      · exact ih c hc

/-- C5: the claim that `extract_batch_data` partitions a non-empty identifier
list into exactly `maxWorkers` chunks is false: ten identifiers split across
three workers produce four chunks (`batch_size = max(1, 10 // 3) = 3` and the
slicing loop emits `ceil(10 / 3) = 4` slices), not three. -/
theorem claim_C5_counterexample :
    (extractBatchChunks sampleTenIds 3).length = 4 ∧
    ¬ (extractBatchChunks sampleTenIds 3).length = 3 := by
  constructor <;> simp [sampleTenIds, extractBatchChunks, chunkList]

set_option linter.unusedVariables false in
/-- C5 (amended): for every non-empty identifier list and every worker count
`N ≥ 1`, `extract_batch_data` partitions the list into contiguous chunks of
size `b = max(1, M / N)`: every chunk except possibly the last has size
exactly `b`, every chunk is non-empty of size at most `b`, and the number of
chunks is `ceil(M / b)` — which equals `N` only when `N` divides `M` evenly,
not in general. -/
theorem claim_C5_amended (orgNumbers : List String) (n : Nat) (hn : 1 ≤ n) :
    (extractBatchChunks orgNumbers n).length
        = (orgNumbers.length + max 1 (orgNumbers.length / n) - 1) / max 1 (orgNumbers.length / n)
    ∧ (∀ c ∈ (extractBatchChunks orgNumbers n).dropLast,
        c.length = max 1 (orgNumbers.length / n))
    ∧ (∀ c ∈ extractBatchChunks orgNumbers n,
        0 < c.length ∧ c.length ≤ max 1 (orgNumbers.length / n)) :=
  ⟨chunkList_length_eq _ (le_max_left _ _) _,
   chunkList_dropLast_sizes _ (le_max_left _ _) _,
   chunkList_mem_sizes _ (le_max_left _ _) _⟩

theorem claim_C5_witness :
    (extractBatchChunks sampleTenIds 3).length
      = (sampleTenIds.length + max 1 (sampleTenIds.length / 3) - 1)
          / max 1 (sampleTenIds.length / 3) :=
  (claim_C5_amended sampleTenIds 3 (by norm_num)).1

set_option linter.unusedVariables false in
/-- C6: for every identifier list and every worker count `N ≥ 1`, the
concatenation of the chunks produced by `extract_batch_data` is exactly the
original list — every identifier appears, in order, none omitted and none
duplicated across chunks. -/
theorem claim_C6_partition_flatten (orgNumbers : List String) (n : Nat) (hn : 1 ≤ n) :
    (extractBatchChunks orgNumbers n).flatten = orgNumbers :=
  chunkList_flatten _ (le_max_left _ _) orgNumbers

theorem claim_C6_witness :
    (extractBatchChunks sampleTenIds 3).flatten = sampleTenIds :=
  claim_C6_partition_flatten sampleTenIds 3 (by norm_num)

theorem dropDupAux_first (seen : List String) (l : List DFRow) :
    ∀ r ∈ dropDupAux seen l,
      r.corporateIdClean ∉ seen ∧
      l.find? (fun x => x.corporateIdClean == r.corporateIdClean) = some r := by
  induction l generalizing seen with
  | nil => intro r hr; cases hr
  | cons x xs ih =>
    intro r hr
    rw [dropDupAux] at hr
    by_cases hx : seen.contains x.corporateIdClean
    · rw [if_pos hx] at hr
      obtain ⟨hnot, hfind⟩ := ih seen r hr
      have hne : x.corporateIdClean ≠ r.corporateIdClean := by
        intro he
        exact hnot (he ▸ (by simpa using hx))
      constructor
      · exact hnot
      · rw [List.find?_cons_of_neg _ (by simpa using hne)]
        exact hfind
    · rw [if_neg hx] at hr
      rcases List.mem_cons.mp hr with rfl | hr
      · refine ⟨by simpa using hx, ?_⟩
        rw [List.find?_cons_of_pos _ (by simp)]
      · obtain ⟨hnot, hfind⟩ := ih (x.corporateIdClean :: seen) r hr
        have hne : x.corporateIdClean ≠ r.corporateIdClean := by
          intro he
          exact hnot (by simp [he])
        refine ⟨fun hmem => hnot (List.mem_cons_of_mem _ hmem), ?_⟩
        rw [List.find?_cons_of_neg _ (by simpa using hne)]
        exact hfind

theorem dropDupAux_sub (seen : List String) (l : List DFRow) :
    ∀ r ∈ dropDupAux seen l, r ∈ l := by
  induction l generalizing seen with
  | nil => intro r hr; cases hr
  | cons x xs ih =>
    intro r hr
    rw [dropDupAux] at hr
    by_cases hx : seen.contains x.corporateIdClean
    · rw [if_pos hx] at hr
      exact List.mem_cons_of_mem _ (ih seen r hr)
    · rw [if_neg hx] at hr
      rcases List.mem_cons.mp hr with rfl | hr
      · exact List.mem_cons_self _ _
      · exact List.mem_cons_of_mem _ (ih _ r hr)

theorem dropDupAux_keys_nodup (seen : List String) (l : List DFRow) :
    ((dropDupAux seen l).map (fun r => r.corporateIdClean)).Nodup := by
  induction l generalizing seen with
  | nil => simp [dropDupAux]
  | cons x xs ih =>
    rw [dropDupAux]
    by_cases hx : seen.contains x.corporateIdClean
    · rw [if_pos hx]
      exact ih seen
    · rw [if_neg hx]
      rw [List.map_cons, List.nodup_cons]
      constructor
      · intro hmem
        obtain ⟨r, hr, hkey⟩ := List.mem_map.mp hmem
        obtain ⟨hnot, _⟩ := dropDupAux_first _ _ r hr
        exact hnot (by simp [hkey])
      · exact ih _

theorem dropDupAux_covers (seen : List String) (l : List DFRow) :
    ∀ x ∈ l, x.corporateIdClean ∈ seen ∨
      x.corporateIdClean ∈ (dropDupAux seen l).map (fun r => r.corporateIdClean) := by
  induction l generalizing seen with
  | nil => intro x hx; cases hx
  | cons y ys ih =>
    intro x hx
    rw [dropDupAux]
    by_cases hy : seen.contains y.corporateIdClean
    · rw [if_pos hy]
      rcases List.mem_cons.mp hx with rfl | hx
      · exact Or.inl (by simpa using hy)
      · exact ih seen x hx
    · rw [if_neg hy]
      rcases List.mem_cons.mp hx with rfl | hx
      · exact Or.inr (by simp)
      · rcases ih (y.corporateIdClean :: seen) x hx with hmem | hmem
        · rcases List.mem_cons.mp hmem with heq | hmem
          · exact Or.inr (by simp [heq])
          · exact Or.inl hmem
        · exact Or.inr (by simp [hmem])

theorem dropDupAux_length_le (seen : List String) (l : List DFRow) :
    (dropDupAux seen l).length ≤ l.length := by
  induction l generalizing seen with
  | nil => simp [dropDupAux]
  | cons x xs ih =>
    rw [dropDupAux]
    by_cases hx : seen.contains x.corporateIdClean
    · rw [if_pos hx]
      exact Nat.le_succ_of_le (ih seen)
    · rw [if_neg hx]
      simpa using ih (x.corporateIdClean :: seen)

/-- C7: deduplication in `bulk_upsert_companies` collapses the input to one
row per `CorporateID_Clean` key (the cleaned rows have pairwise distinct
keys and every input key survives), each kept row is the first input row
bearing its key, the reported `duplicates_removed` count is exactly the
number of rows dropped, and two input rows sharing one key yield exactly one
reported duplicate. -/
theorem claim_C7_dedup (df : List DFRow) :
    ((dropDupFirst df).map (fun r => r.corporateIdClean)).Nodup
    ∧ (∀ r ∈ dropDupFirst df,
        df.find? (fun x => x.corporateIdClean == r.corporateIdClean) = some r)
    ∧ (∀ x ∈ df,
        x.corporateIdClean ∈ (dropDupFirst df).map (fun r => r.corporateIdClean))
    ∧ (dropDupFirst df).length + duplicatesRemovedCount df = df.length
    ∧ (∀ r1 r2 : DFRow, r1.corporateIdClean = r2.corporateIdClean →
        duplicatesRemovedCount [r1, r2] = 1) := by
  refine ⟨dropDupAux_keys_nodup [] df,
          fun r hr => (dropDupAux_first [] df r hr).2,
          fun x hx => ?_,
          ?_, ?_⟩
  · rcases dropDupAux_covers [] df x hx with hmem | hmem
    · cases hmem
    · exact hmem
  · have := dropDupAux_length_le [] df
    unfold duplicatesRemovedCount dropDupFirst
    omega
  · intro r1 r2 h
    simp [duplicatesRemovedCount, dropDupFirst, dropDupAux, h]

theorem claim_C7_witness :
    ((dropDupFirst sampleDupDf).map (fun r => r.corporateIdClean)).Nodup
    ∧ duplicatesRemovedCount sampleDupDf = 1 :=
  ⟨(claim_C7_dedup sampleDupDf).1,
   (claim_C7_dedup sampleDupDf).2.2.2.2
      { corporateIdClean := "12345678" }
      { corporateIdClean := "12345678", organisation_name := Cell.cstr "B" } rfl⟩

theorem withLegalForm_fields (org : JValue) (p q : ParsedRecord)
    (h : withLegalForm org p = .ok q) :
    q.org_number = p.org_number ∧ q.api_status = p.api_status := by
  unfold withLegalForm at h
  repeat' split at h
  all_goals first
  | (injection h with h; subst h; exact ⟨rfl, rfl⟩)
  | simp_all

theorem withNames_fields (org : JValue) (p q : ParsedRecord)
    (h : withNames org p = .ok q) :
    q.org_number = p.org_number ∧ q.api_status = p.api_status := by
  unfold withNames at h
  repeat' split at h
  all_goals first
  | (injection h with h; subst h; exact ⟨rfl, rfl⟩)
  | simp_all

theorem withAddress_fields (org : JValue) (p q : ParsedRecord)
    (h : withAddress org p = .ok q) :
    q.org_number = p.org_number ∧ q.api_status = p.api_status := by
  unfold withAddress at h
  repeat' split at h
  all_goals first
  | (injection h with h; subst h; exact ⟨rfl, rfl⟩)
  | simp_all

theorem withSni_fields (org : JValue) (p q : ParsedRecord)
    (h : withSni org p = .ok q) :
    q.org_number = p.org_number ∧ q.api_status = p.api_status := by
  unfold withSni at h
  repeat' split at h
  all_goals first
  | (injection h with h; subst h; exact ⟨rfl, rfl⟩)
  | simp_all

theorem withRegistrationAndActivity_fields (org : JValue) (p q : ParsedRecord)
    (h : withRegistrationAndActivity org p = .ok q) :
    q.org_number = p.org_number ∧ q.api_status = p.api_status := by
  unfold withRegistrationAndActivity at h
  repeat' split at h
  all_goals first
  | (injection h with h; subst h; exact ⟨rfl, rfl⟩)
  | simp_all

theorem extractOrganisation_fields (n : String) (data : JValue) (now : String)
    (q : ParsedRecord) (h : extractOrganisation n data now = .ok q) :
    q.org_number = n ∧ (q.api_status = "success" ∨ q.api_status = "no_data") := by
  unfold extractOrganisation at h
  split at h
  · cases h
  · split at h
    · cases h
      simp
    · split at h
      · cases h
      · split at h
        · cases h
        · split at h
          · cases h
          · rename_i p1 h1
            split at h
            · cases h
            · rename_i p2 h2
              split at h
              · cases h
              · rename_i p3 h3
                split at h
                · cases h
                · rename_i p4 h4
                  obtain ⟨e1, e2⟩ := withLegalForm_fields _ _ _ h1
                  obtain ⟨f1, f2⟩ := withNames_fields _ _ _ h2
                  obtain ⟨g1, g2⟩ := withAddress_fields _ _ _ h3
                  obtain ⟨i1, i2⟩ := withSni_fields _ _ _ h4
                  obtain ⟨j1, j2⟩ := withRegistrationAndActivity_fields _ _ _ h
                  constructor
                  · rw [j1, i1, g1, f1, e1]
                  · left
                    rw [j2, i2, g2, f2, e2]

/-- C4: for every fetcher outcome, `parse_organisation_data` returns a record
that carries the outcome's identifier and a status tag drawn from
`{success, no_data, parse_error, error, exception}`; it never propagates an
exception (the embedding is a total function whose error case is handled
explicitly), and any exception raised during field extraction becomes a
record with status `"parse_error"` and the error message truncated to 100
characters. -/
theorem claim_C4_parser_invariants (o : FetchOutcome) (now : String) :
    (parseOrganisationData o now).org_number = outcomeOrgNumber o
    ∧ (parseOrganisationData o now).api_status ∈ statusTags
    ∧ (∀ n data e, o = FetchOutcome.success n data →
        extractOrganisation n data now = Except.error e →
        (parseOrganisationData o now).api_status = "parse_error"
        ∧ (parseOrganisationData o now).error = some ("Parse error: " ++ takeCharsStr 100 e)) := by
  cases o with
  | httpError n code msg =>
    refine ⟨rfl, by simp [parseOrganisationData, statusTags], ?_⟩
    intro n' data' e' heq
    cases heq
  | exc n msg =>
    refine ⟨rfl, by simp [parseOrganisationData, statusTags], ?_⟩
    intro n' data' e' heq
    cases heq
  | success n data =>
    cases hext : extractOrganisation n data now with
    | ok p =>
      obtain ⟨h1, h2⟩ := extractOrganisation_fields n data now p hext
      refine ⟨?_, ?_, ?_⟩
      · simp [parseOrganisationData, hext, h1, outcomeOrgNumber]
      · simp only [parseOrganisationData, hext]
        rcases h2 with h2 | h2 <;> simp [h2, statusTags]
      · intro n' data' e' heq hext'
        injection heq with hn hd
        subst hn
        subst hd
        rw [hext] at hext'
        cases hext'
    | error e =>
      refine ⟨?_, ?_, ?_⟩
      · simp [parseOrganisationData, hext, outcomeOrgNumber]
      · simp [parseOrganisationData, hext, statusTags]
      · intro n' data' e' heq hext'
        injection heq with hn hd
        subst hn
        subst hd
        rw [hext] at hext'
        injection hext' with he
        subst he
        simp [parseOrganisationData, hext]

theorem claim_C4_witness :
    (parseOrganisationData (FetchOutcome.success "5560001234" (JValue.jstr "boom")) "T").api_status
        = "parse_error"
    ∧ (parseOrganisationData (FetchOutcome.success "5560001234" (JValue.jstr "boom")) "T").error
        = some ("Parse error: " ++ takeCharsStr 100 "AttributeError: object has no attribute get") :=
  (claim_C4_parser_invariants (FetchOutcome.success "5560001234" (JValue.jstr "boom")) "T").2.2
    "5560001234" (JValue.jstr "boom") "AttributeError: object has no attribute get" rfl rfl

theorem findMainSni_eq_find (l : List JValue) (hwf : ∀ x ∈ l, WFSni x) :
    findMainSni l = Except.ok (l.find? specSniGood) := by
  induction l with
  | nil => rfl
  | cons sni rest ih =>
    obtain ⟨fs, rfl, hkod⟩ := hwf _ (List.mem_cons_self _ _)
    have hrest : ∀ x ∈ rest, WFSni x := fun x hx => hwf x (List.mem_cons_of_mem _ hx)
    rcases hkod with hnone | ⟨s, hsome⟩
    · have h1 : pyGetD (JValue.obj fs) "kod" (JValue.jstr "") = .ok (JValue.jstr "") := by
        simp [pyGetD, hnone]
      have hgood : specSniGood (JValue.obj fs) = false := by
        simp [specSniGood, hnone]
      rw [findMainSni, h1]
      simp only [pyStripWs]
      have htrim : pyStripStr "" = "" := by decide
      rw [htrim, if_pos (by simp)]
      rw [List.find?_cons_of_neg _ (by simp [hgood])]
      exact ih hrest
    · have h1 : pyGetD (JValue.obj fs) "kod" (JValue.jstr "") = .ok (JValue.jstr s) := by
        simp [pyGetD, hsome]
      have h2 : pyGetD (JValue.obj fs) "kod" JValue.null = .ok (JValue.jstr s) := by
        simp [pyGetD, hsome]
      by_cases hs : pyStripStr s = ""
      · have hgood : specSniGood (JValue.obj fs) = false := by
          simp [specSniGood, hsome, hs]
        rw [findMainSni, h1]
        simp only [pyStripWs]
        rw [if_pos (by simp [hs])]
        rw [List.find?_cons_of_neg _ (by simp [hgood])]
        exact ih hrest
      · have hgood : specSniGood (JValue.obj fs) = true := by
          simp [specSniGood, hsome]
          exact hs
        have hne5 : pyEqStr (JValue.jstr s) "     " = false := by
          simp only [pyEqStr]
          rw [beq_eq_false_iff_ne]
          intro he
          subst he
          exact hs (by decide)
        rw [findMainSni, h1]
        simp only [pyStripWs]
        rw [if_neg (by simp [hs]), h2]
        rw [List.find?_cons_of_pos _ hgood]
        simp [hne5]

/-- C8: the SNI selection of `parse_organisation_data` picks the first entry
of the classification list whose code is non-blank and not all-whitespace
(for well-formed entries it coincides with `List.find?` of the spec's
predicate `specSniGood`), and on the spec's example list — a blank
placeholder `{"kod": "   "}` followed by `{"kod": "62.01", "klartext": "X"}` —
the parser extracts code `"62.01"` and description `"X"`. -/
theorem claim_C8_sni_selection :
    (∀ l : List JValue, (∀ x ∈ l, WFSni x) →
        findMainSni l = Except.ok (l.find? specSniGood))
    ∧ (∀ now : String,
        (parseOrganisationData (FetchOutcome.success "5560001234" sampleSniData) now).sni_code
            = some (JValue.jstr "62.01")
        ∧ (parseOrganisationData (FetchOutcome.success "5560001234" sampleSniData) now).sni_description
            = some (JValue.jstr "X")) := by
  constructor
  · exact findMainSni_eq_find
  · intro now
    exact ⟨rfl, rfl⟩

theorem claim_C8_witness :
    findMainSni sampleSniList = Except.ok (sampleSniList.find? specSniGood)
    ∧ sampleSniList.find? specSniGood
        = some (JValue.obj [("kod", JValue.jstr "62.01"), ("klartext", JValue.jstr "X")]) :=
  ⟨claim_C8_sni_selection.1 sampleSniList (by
      intro x hx
      rcases List.mem_cons.mp hx with rfl | hx
      · exact ⟨_, rfl, Or.inr ⟨"   ", rfl⟩⟩
      · rcases List.mem_cons.mp hx with rfl | hx
        · exact ⟨_, rfl, Or.inr ⟨"62.01", rfl⟩⟩
        · cases hx),
   rfl⟩

/-- C1: the claim that both join columns are normalized by stripping
separators and whitespace is false.  The same hyphenated identifier
`"1234-5678"` on both sides — equal, so certainly equal after the claimed
stripping normalization — fails to join: the secondary key goes through
numeric coercion (`pd.to_numeric(...).fillna(0).astype(int).astype(str)`),
which turns the non-numeric `"1234-5678"` into `"0"`, while the fetched side
becomes `"12345678"`; the merged row keeps the secondary data with the
fetched fields null. -/
theorem claim_C1_counterexample :
    specStripNorm "1234-5678" = specStripNorm "1234-5678"
    ∧ mergeRows [{ corporateId := "1234-5678", category := none }]
        [{ org_number := "1234-5678", api_status := some "success" }]
        = [{ corporateIdClean := "0", category := none, fetched := none }] :=
  ⟨rfl, by decide⟩

/-- C1 (amended): the reconciliation is a left join from the secondary
dataset to the fetched records, but on asymmetrically normalized keys — the
fetched identifier is normalized by stripping hyphens and whitespace while
the secondary key is normalized by numeric coercion (non-numeric keys
becoming `"0"`).  Every output row stems from a secondary row; a secondary
row with no fetched match is kept with the fetched fields null; a fetched
field block appears only as the hyphen-stripped version of an input fetched
row, joined on `fiNormalize` key equal to `bNormalize` identifier; and a
fetched row whose normalized identifier matches no secondary key contributes
to no output row. -/
theorem claim_C1_amended (fi : List FiRow) (b : List BRow) :
    (∀ m ∈ mergeRows fi b,
        ∃ f ∈ fi, m.corporateIdClean = fiNormalize f.corporateId ∧ m.category = f.category)
    ∧ (∀ f ∈ fi,
        (∀ r0 ∈ b, bNormalize r0.org_number ≠ fiNormalize f.corporateId) →
        ({ corporateIdClean := fiNormalize f.corporateId, category := f.category,
           fetched := none } : MergedRow) ∈ mergeRows fi b)
    ∧ (∀ m ∈ mergeRows fi b, ∀ r, m.fetched = some r →
        r.org_number = m.corporateIdClean ∧
        ∃ r0 ∈ b, r = { r0 with org_number := bNormalize r0.org_number })
    ∧ (∀ r0 ∈ b, (∀ f ∈ fi, fiNormalize f.corporateId ≠ bNormalize r0.org_number) →
        ∀ m ∈ mergeRows fi b, ∀ r, m.fetched = some r →
          r.org_number ≠ bNormalize r0.org_number) := by
  have hmem : ∀ m ∈ mergeRows fi b,
      ∃ f ∈ fi, m.corporateIdClean = fiNormalize f.corporateId ∧ m.category = f.category
        ∧ (m.fetched = none ∨
            ∃ r ∈ (b.map (fun r => { r with org_number := bNormalize r.org_number })).filter
                (fun r => r.org_number == fiNormalize f.corporateId), m.fetched = some r) := by
    intro m hm
    obtain ⟨f, hf, hmf⟩ := List.mem_flatMap.mp hm
    refine ⟨f, hf, ?_⟩
    revert hmf
    split
    · intro hmf
      rcases List.mem_singleton.mp hmf with rfl
      exact ⟨rfl, rfl, Or.inl rfl⟩
    · rename_i ms hms
      intro hmf
      obtain ⟨r, hr, rfl⟩ := List.mem_map.mp hmf
      exact ⟨rfl, rfl, Or.inr ⟨r, hr, rfl⟩⟩
  have hfetched : ∀ m ∈ mergeRows fi b, ∀ r, m.fetched = some r →
      r.org_number = m.corporateIdClean ∧
      ∃ r0 ∈ b, r = { r0 with org_number := bNormalize r0.org_number } := by
    intro m hm r hr
    obtain ⟨f, hf, h1, _, hcase⟩ := hmem m hm
    rcases hcase with hnone | ⟨r', hr', hsome⟩
    · rw [hnone] at hr
      cases hr
    · rw [hsome] at hr
      injection hr with hr
      subst hr
      obtain ⟨hmemb, hkey⟩ := List.mem_filter.mp hr'
      obtain ⟨r0, hr0, rfl⟩ := List.mem_map.mp hmemb
      refine ⟨?_, r0, hr0, rfl⟩
      rw [h1]
      exact beq_iff_eq.mp hkey
  refine ⟨?_, ?_, hfetched, ?_⟩
  · intro m hm
    obtain ⟨f, hf, h1, h2, _⟩ := hmem m hm
    exact ⟨f, hf, h1, h2⟩
  · intro f hf hnone
    apply List.mem_flatMap.mpr
    refine ⟨f, hf, ?_⟩
    have hfil : (b.map (fun r => { r with org_number := bNormalize r.org_number })).filter
        (fun r => r.org_number == fiNormalize f.corporateId) = [] := by
      apply List.filter_eq_nil_iff.mpr
      intro r hr
      obtain ⟨r0, hr0, rfl⟩ := List.mem_map.mp hr
      simp only [beq_iff_eq]
      exact hnone r0 hr0
    rw [hfil]
    exact List.mem_singleton.mpr rfl
  · intro r0 hr0 hnof m hm r hr habs
    obtain ⟨f, hf, h1, _, hcase⟩ := hmem m hm
    rcases hcase with hnone | ⟨r', hr', hsome⟩
    · rw [hnone] at hr
      cases hr
    · rw [hsome] at hr
      injection hr with hr
      subst hr
      obtain ⟨_, hkey⟩ := List.mem_filter.mp hr'
      exact hnof f hf ((beq_iff_eq.mp hkey).symm.trans habs)

theorem claim_C1_witness :
    ({ corporateIdClean := fiNormalize "9999A", category := some "Bank",
       fetched := none } : MergedRow)
      ∈ mergeRows [{ corporateId := "9999A", category := some "Bank" }] [] :=
  (claim_C1_amended [{ corporateId := "9999A", category := some "Bank" }] []).2.1
    { corporateId := "9999A", category := some "Bank" }
    (List.mem_singleton.mpr rfl)
    (fun r0 hr0 => absurd hr0 (List.not_mem_nil r0))

/-- C10: `merge_with_finansinspektionen_data` wraps the CSV read and the join
in a broad `try/except`: when loading the secondary dataset fails (for
instance the file is missing) or its `CorporateID_Clean` key column is
absent, the function returns the fetched dataframe unchanged instead of
propagating the exception, so the run continues without secondary
enrichment. -/
theorem claim_C10_merge_fallback (bdf : List BRow) :
    (∀ e, mergeWithFinansinspektionenData (Except.error e) bdf = MergeResult.fallback bdf)
    ∧ (∀ t : FiTable, t.hasKeyColumn = false →
        mergeWithFinansinspektionenData (Except.ok t) bdf = MergeResult.fallback bdf) := by
  constructor
  · intro e
    rfl
  · intro t ht
    simp [mergeWithFinansinspektionenData, ht]

theorem claim_C10_witness :
    mergeWithFinansinspektionenData (Except.error "FileNotFoundError")
        [{ org_number := "5560001234", api_status := some "success" }]
      = MergeResult.fallback [{ org_number := "5560001234", api_status := some "success" }]
    ∧ mergeWithFinansinspektionenData
        (Except.ok { hasKeyColumn := false, rows := [] })
        [{ org_number := "5560001234", api_status := some "success" }]
      = MergeResult.fallback [{ org_number := "5560001234", api_status := some "success" }] :=
  ⟨(claim_C10_merge_fallback _).1 "FileNotFoundError",
   (claim_C10_merge_fallback _).2 { hasKeyColumn := false, rows := [] } rfl⟩

/-- C9: when an upserted row conflicts on the unique `corporate_id`, only the
mutable columns `name`, `category`, `api_status`, `is_active` are overwritten
from the incoming row and `updated_at` is bumped; `created_at` and every
column outside the `DO UPDATE SET` list (`is_deregistered`,
`registration_date`, the address columns, the SNI columns, the legal-form
columns, `query_timestamp`) keep the existing row's values, rows with other
keys are untouched, and the row count is unchanged. -/
theorem claim_C9_conflict_frame (now : Nat) (table : List CompanyRow) (r : InsertRow)
    (old : CompanyRow) (hnd : (tableKeys table).Nodup) (hold : old ∈ table)
    (hkey : old.corporate_id = r.corporate_id) :
    (upsertOne now table r).length = table.length
    ∧ ∀ row ∈ upsertOne now table r,
        (row.corporate_id ≠ r.corporate_id → row ∈ table)
        ∧ (row.corporate_id = r.corporate_id →
            row.name = r.name ∧ row.category = r.category ∧ row.api_status = r.api_status
            ∧ row.is_active = r.is_active ∧ row.updated_at = now
            ∧ row.corporate_id = old.corporate_id
            ∧ row.created_at = old.created_at ∧ row.is_deregistered = old.is_deregistered
            ∧ row.registration_date = old.registration_date
            ∧ row.street_address = old.street_address ∧ row.city = old.city
            ∧ row.postal_code = old.postal_code ∧ row.country = old.country
            ∧ row.sni_code = old.sni_code ∧ row.sni_description = old.sni_description
            ∧ row.legal_form_code = old.legal_form_code
            ∧ row.legal_form_description = old.legal_form_description
            ∧ row.query_timestamp = old.query_timestamp) := by
  have hmemk : r.corporate_id ∈ tableKeys table :=
    List.mem_map.mpr ⟨old, hold, hkey⟩
  have hcont : (tableKeys table).contains r.corporate_id = true := by
    simpa using hmemk
  unfold upsertOne
  rw [if_pos hcont]
  constructor
  · exact List.length_map _ _
  · intro row hrow
    obtain ⟨x, hx, rfl⟩ := List.mem_map.mp hrow
    unfold conflictMap
    by_cases hxk : x.corporate_id = r.corporate_id
    · rw [if_pos (by simpa using hxk)]
      have hxold : x = old :=
        List.inj_on_of_nodup_map hnd hx hold (hxk.trans hkey.symm)
      subst hxold
      constructor
      · intro hne
        exact absurd hxk hne
      · intro _
        simp [applyConflictUpdate]
    · rw [if_neg (by simpa using hxk)]
      exact ⟨fun _ => hx, fun heq => absurd heq hxk⟩

theorem claim_C9_witness :
    (upsertOne 9 [sampleOldRow] sampleInsertRow).length = 1
    ∧ ∀ row ∈ upsertOne 9 [sampleOldRow] sampleInsertRow,
        row.corporate_id = "5560001234" →
          row.name = some "New Name" ∧ row.created_at = 5
          ∧ row.registration_date = some "2020-01-01"
          ∧ row.is_deregistered = some false ∧ row.updated_at = 9 := by
  have h := claim_C9_conflict_frame 9 [sampleOldRow] sampleInsertRow sampleOldRow
    (by simp [tableKeys]) (List.mem_singleton.mpr rfl) rfl
  refine ⟨h.1, ?_⟩
  intro row hrow hk
  obtain ⟨h1, _, _, _, h5, _, h7, h8, h9, _⟩ := (h.2 row hrow).2 hk
  exact ⟨h1, h7, h9, h8, h5⟩

theorem conflictMap_key (now : Nat) (r : InsertRow) (old : CompanyRow) :
    (conflictMap now r old).corporate_id = old.corporate_id := by
  unfold conflictMap
  split
  · rfl
  · rfl

theorem resolveWith_key (now : Nat) (rows : List InsertRow) (old : CompanyRow) :
    (resolveWith now rows old).corporate_id = old.corporate_id := by
  unfold resolveWith
  split
  · rfl
  · rfl

theorem tableKeys_append (t1 t2 : List CompanyRow) :
    tableKeys (t1 ++ t2) = tableKeys t1 ++ tableKeys t2 :=
  List.map_append _ _ _

theorem tableKeys_conflictMap (now : Nat) (r : InsertRow) (table : List CompanyRow) :
    tableKeys (table.map (conflictMap now r)) = tableKeys table := by
  unfold tableKeys
  rw [List.map_map]
  exact List.map_congr_left (fun x _ => conflictMap_key now r x)

theorem tableKeys_resolveWith (now : Nat) (rows : List InsertRow) (table : List CompanyRow) :
    tableKeys (table.map (resolveWith now rows)) = tableKeys table := by
  unfold tableKeys
  rw [List.map_map]
  exact List.map_congr_left (fun x _ => resolveWith_key now rows x)

theorem find?_key_unique (rows : List InsertRow)
    (hnd : (rows.map (fun r => r.corporate_id)).Nodup) (r : InsertRow) (hr : r ∈ rows) :
    rows.find? (fun x => x.corporate_id == r.corporate_id) = some r := by
  induction rows with
  | nil => cases hr
  | cons y ys ih =>
    rcases List.mem_cons.mp hr with rfl | hr
    · rw [List.find?_cons_of_pos _ (by simp)]
    · have hne : y.corporate_id ≠ r.corporate_id := by
        intro he
        exact (List.nodup_cons.mp hnd).1
          (List.mem_map.mpr ⟨r, hr, he.symm⟩)
      rw [List.find?_cons_of_neg _ (by simpa using hne)]
      exact ih (List.nodup_cons.mp hnd).2 hr

theorem foldl_upsert_char (now : Nat) (rows : List InsertRow) :
    ∀ table : List CompanyRow,
      (tableKeys table).Nodup → (rows.map (fun r => r.corporate_id)).Nodup →
      rows.foldl (upsertOne now) table =
        table.map (resolveWith now rows)
          ++ (rows.filter (fun r => !(tableKeys table).contains r.corporate_id)).map
               (insertNewRow now) := by
  induction rows with
  | nil =>
    intro table hnd _
    simp only [List.foldl_nil, List.filter_nil, List.map_nil, List.append_nil]
    have h0 : ∀ x ∈ table, resolveWith now [] x = x := fun x _ => rfl
    calc table = List.map id table := (List.map_id table).symm
    _ = List.map (resolveWith now []) table := (List.map_congr_left h0).symm
  | cons r rs ih =>
    intro table hnd hrows
    obtain ⟨hkr, hrs⟩ := List.nodup_cons.mp hrows
    rw [List.foldl_cons]
    by_cases hc : (tableKeys table).contains r.corporate_id = true
    · have hstep : upsertOne now table r = table.map (conflictMap now r) := by
        unfold upsertOne
        rw [if_pos hc]
      rw [hstep]
      have hkeys' : tableKeys (table.map (conflictMap now r)) = tableKeys table :=
        tableKeys_conflictMap now r table
      rw [ih _ (by rw [hkeys']; exact hnd) hrs, hkeys']
      have hleft : (table.map (conflictMap now r)).map (resolveWith now rs)
          = table.map (resolveWith now (r :: rs)) := by
        rw [List.map_map]
        apply List.map_congr_left
        intro old _
        show resolveWith now rs (conflictMap now r old) = resolveWith now (r :: rs) old
        by_cases hok : old.corporate_id = r.corporate_id
        · have h1 : conflictMap now r old = applyConflictUpdate now old r := by
            unfold conflictMap
            rw [if_pos (by simpa using hok)]
          rw [h1]
          unfold resolveWith
          have hfindrs : rs.find?
              (fun x => x.corporate_id == (applyConflictUpdate now old r).corporate_id)
                = none := by
            apply List.find?_eq_none.mpr
            intro x hx
            simp only [beq_iff_eq]
            intro he
            apply hkr
            apply List.mem_map.mpr
            refine ⟨x, hx, ?_⟩
            rw [he]
            show old.corporate_id = r.corporate_id
            exact hok
          rw [hfindrs, List.find?_cons_of_pos _ (by simpa using hok.symm)]
        · have h1 : conflictMap now r old = old := by
            unfold conflictMap
            rw [if_neg (by simpa using hok)]
          rw [h1]
          unfold resolveWith
          rw [List.find?_cons_of_neg _ (by simpa using (Ne.symm hok))]
      rw [hleft]
      have hright : List.filter (fun x => !(tableKeys table).contains x.corporate_id) (r :: rs)
          = List.filter (fun x => !(tableKeys table).contains x.corporate_id) rs := by
        rw [List.filter_cons_of_neg (by simpa using hc)]
      rw [hright]
    · have hcf : (tableKeys table).contains r.corporate_id = false := by
        simpa using hc
      have hstep : upsertOne now table r = table ++ [insertNewRow now r] := by
        unfold upsertOne
        rw [if_neg hc]
      rw [hstep]
      have hknotin : r.corporate_id ∉ tableKeys table := by
        intro hmem
        have hct : (tableKeys table).contains r.corporate_id = true := by
          simpa using hmem
        rw [hct] at hcf
        exact absurd hcf (by decide)
      have hnd' : (tableKeys (table ++ [insertNewRow now r])).Nodup := by
        rw [tableKeys_append]
        apply List.Nodup.append hnd (List.nodup_singleton _)
        intro a ha hb
        have : a = r.corporate_id := by
          simpa [tableKeys, insertNewRow] using hb
        subst this
        exact hknotin ha
      rw [ih _ hnd' hrs]
      have hleft : (table ++ [insertNewRow now r]).map (resolveWith now rs)
          = table.map (resolveWith now (r :: rs)) ++ [insertNewRow now r] := by
        rw [List.map_append]
        congr 1
        · apply List.map_congr_left
          intro old hold
          have hok : old.corporate_id ≠ r.corporate_id := by
            intro he
            exact hknotin (he ▸ List.mem_map.mpr ⟨old, hold, rfl⟩)
          show resolveWith now rs old = resolveWith now (r :: rs) old
          unfold resolveWith
          rw [List.find?_cons_of_neg _ (by simpa using (Ne.symm hok))]
        · show [resolveWith now rs (insertNewRow now r)] = [insertNewRow now r]
          have hfind : rs.find?
              (fun x => x.corporate_id == (insertNewRow now r).corporate_id) = none := by
            apply List.find?_eq_none.mpr
            intro x hx
            simp only [beq_iff_eq]
            intro he
            exact hkr (List.mem_map.mpr ⟨x, hx, he⟩)
          unfold resolveWith
          rw [hfind]
      have hfiltcongr : rs.filter
            (fun x => !(tableKeys (table ++ [insertNewRow now r])).contains x.corporate_id)
          = rs.filter (fun x => !(tableKeys table).contains x.corporate_id) := by
        apply List.filter_congr
        intro x hx
        have hxk : x.corporate_id ≠ r.corporate_id := by
          intro he
          exact hkr (List.mem_map.mpr ⟨x, hx, he⟩)
        rw [tableKeys_append]
        simp [tableKeys, insertNewRow, hxk]
      have hfiltgoal : List.filter (fun x => !(tableKeys table).contains x.corporate_id) (r :: rs)
          = r :: List.filter (fun x => !(tableKeys table).contains x.corporate_id) rs := by
        rw [List.filter_cons_of_pos (by simpa using hknotin)]
      rw [hleft, hfiltcongr, hfiltgoal]
      simp

theorem foldl_upsert_twice (t1 t2 : Nat) (rows : List InsertRow) (table : List CompanyRow)
    (hnd : (tableKeys table).Nodup)
    (hrows : (rows.map (fun r => r.corporate_id)).Nodup) :
    (rows.foldl (upsertOne t2) (rows.foldl (upsertOne t1) table)).length
        = (rows.foldl (upsertOne t1) table).length
    ∧ (rows.foldl (upsertOne t2) (rows.foldl (upsertOne t1) table)).map stripUpdatedAt
        = (rows.foldl (upsertOne t1) table).map stripUpdatedAt := by
  have hchar1 := foldl_upsert_char t1 rows table hnd hrows
  have hkeysT1 : tableKeys (rows.foldl (upsertOne t1) table)
      = tableKeys table
        ++ (rows.filter (fun r => !(tableKeys table).contains r.corporate_id)).map
             (fun r => r.corporate_id) := by
    rw [hchar1, tableKeys_append, tableKeys_resolveWith]
    congr 1
    unfold tableKeys
    rw [List.map_map]
    exact List.map_congr_left (fun x _ => rfl)
  have hndT1 : (tableKeys (rows.foldl (upsertOne t1) table)).Nodup := by
    rw [hkeysT1]
    apply List.Nodup.append hnd
    · exact List.Nodup.sublist
        (List.Sublist.map _ (List.filter_sublist _)) hrows
    · intro a ha hb
      obtain ⟨x, hx, rfl⟩ := List.mem_map.mp hb
      obtain ⟨_, hpx⟩ := List.mem_filter.mp hx
      have : x.corporate_id ∉ tableKeys table := by simpa using hpx
      exact this ha
  have hchar2 := foldl_upsert_char t2 rows _ hndT1 hrows
  have hfilter2 : rows.filter
      (fun x => !(tableKeys (rows.foldl (upsertOne t1) table)).contains x.corporate_id)
        = [] := by
    apply List.filter_eq_nil_iff.mpr
    intro x hx
    have hxmem : x.corporate_id ∈ tableKeys (rows.foldl (upsertOne t1) table) := by
      rw [hkeysT1]
      by_cases hcx : x.corporate_id ∈ tableKeys table
      · exact List.mem_append.mpr (Or.inl hcx)
      · apply List.mem_append.mpr
        right
        apply List.mem_map.mpr
        refine ⟨x, List.mem_filter.mpr ⟨hx, ?_⟩, rfl⟩
        simpa using hcx
    simpa using hxmem
  rw [hchar2, hfilter2]
  simp only [List.map_nil, List.append_nil]
  refine ⟨List.length_map _ _, ?_⟩
  rw [List.map_map]
  apply List.map_congr_left
  intro x hxT1
  show stripUpdatedAt (resolveWith t2 rows x) = stripUpdatedAt x
  rw [hchar1] at hxT1
  rcases List.mem_append.mp hxT1 with hxA | hxB
  · obtain ⟨old, hold, rfl⟩ := List.mem_map.mp hxA
    cases hfind : rows.find? (fun r => r.corporate_id == old.corporate_id) with
    | none =>
      have hres : resolveWith t1 rows old = old := by
        unfold resolveWith
        rw [hfind]
      rw [hres]
      unfold resolveWith
      rw [hfind]
    | some rr =>
      have hres : resolveWith t1 rows old = applyConflictUpdate t1 old rr := by
        unfold resolveWith
        rw [hfind]
      rw [hres]
      unfold resolveWith
      have hkeyeq : (applyConflictUpdate t1 old rr).corporate_id = old.corporate_id := rfl
      rw [hkeyeq, hfind]
      rfl
  · obtain ⟨rr, hrr, rfl⟩ := List.mem_map.mp hxB
    obtain ⟨hrrmem, _⟩ := List.mem_filter.mp hrr
    unfold resolveWith
    have hkey : (insertNewRow t1 rr).corporate_id = rr.corporate_id := rfl
    rw [hkey, find?_key_unique rows hrows rr hrrmem]
    rfl

/-- C2: the claim that running the deduplicate-and-upsert step twice with
identical input leaves the persisted state bit-for-bit identical (the same
value in every field of every row) is false: the second run's conflict clause
re-bumps `updated_at` to the second run's `CURRENT_TIMESTAMP`, so the
`updated_at` field differs between running once (at time 0) and running twice
(at times 0 then 1) on a one-row input over an empty table. -/
theorem claim_C2_counterexample :
    bulkUpsertTable 1 (bulkUpsertTable 0 [] sampleLoadDf) sampleLoadDf
      ≠ bulkUpsertTable 0 [] sampleLoadDf := by
  decide

/-- C2 (amended): the Reconciliation & Load step is idempotent up to the
server-side `updated_at` bump: for every initial table state with unique keys
and every input dataframe, running deduplication plus bulk upsert twice
yields the same row count as running it once, and every field of every row
except `updated_at` is identical (in particular name, category, status,
active flag, the immutable `created_at`, and all non-mutable columns). -/
theorem claim_C2_amended (t1 t2 : Nat) (table : List CompanyRow) (df : List DFRow)
    (hnd : (tableKeys table).Nodup) :
    (bulkUpsertTable t2 (bulkUpsertTable t1 table df) df).length
        = (bulkUpsertTable t1 table df).length
    ∧ (bulkUpsertTable t2 (bulkUpsertTable t1 table df) df).map stripUpdatedAt
        = (bulkUpsertTable t1 table df).map stripUpdatedAt := by
  have hrows : (((dropDupFirst df).map toInsertRow).map (fun r => r.corporate_id)).Nodup := by
    rw [List.map_map]
    exact dropDupAux_keys_nodup [] df
  exact foldl_upsert_twice t1 t2 ((dropDupFirst df).map toInsertRow) table hnd hrows

theorem claim_C2_witness :
    (bulkUpsertTable 1 (bulkUpsertTable 0 [] sampleLoadDf) sampleLoadDf).length
        = (bulkUpsertTable 0 [] sampleLoadDf).length
    ∧ (bulkUpsertTable 1 (bulkUpsertTable 0 [] sampleLoadDf) sampleLoadDf).map stripUpdatedAt
        = (bulkUpsertTable 0 [] sampleLoadDf).map stripUpdatedAt :=
  claim_C2_amended 0 1 [] sampleLoadDf (by simp [tableKeys])

theorem tmInv_step {n : Nat} {s s' : TMState n} (hs : TMInv s) (hstep : TMStep s s') :
    TMInv s' := by
  obtain ⟨hlock, hdone, hcount⟩ := hs
  cases hstep with
  | enter i h =>
    refine ⟨?_, ?_, ?_⟩
    · intro j hj
      by_cases hji : j = i
      · subst hji
        simp only [Function.update_same] at hj
        rcases hj with h' | h' <;> cases h'
      · simp only [Function.update_noteq hji] at hj
        exact hlock j hj
    · intro j hj
      by_cases hji : j = i
      · subst hji
        simp only [Function.update_same] at hj
        cases hj
      · simp only [Function.update_noteq hji] at hj
        exact hdone j hj
    · have hset : ∀ j, Function.update s.pc i TPC.wantLock j = TPC.refreshing
          ↔ s.pc j = TPC.refreshing := by
        intro j
        by_cases hji : j = i
        · subst hji
          rw [Function.update_same, h]
          constructor <;> (intro h'; cases h')
        · rw [Function.update_noteq hji]
      rcases hcount with ⟨h1, h2, h3⟩ | ⟨h1, h2, h3⟩ | ⟨h1, h2, h3⟩
      · exact Or.inl ⟨h1, h2, fun j hj => h3 j ((hset j).mp hj)⟩
      · exact Or.inr (Or.inl ⟨h1, h2, fun j hj => h3 j ((hset j).mp hj)⟩)
      · obtain ⟨j, hj⟩ := h3
        exact Or.inr (Or.inr ⟨h1, h2, j, (hset j).mpr hj⟩)
  | lock i h hl =>
    refine ⟨?_, ?_, ?_⟩
    · intro j hj
      by_cases hji : j = i
      · subst hji
        rfl
      · simp only [Function.update_noteq hji] at hj
        have := hlock j hj
        rw [hl] at this
        cases this
    · intro j hj
      by_cases hji : j = i
      · subst hji
        simp only [Function.update_same] at hj
        cases hj
      · simp only [Function.update_noteq hji] at hj
        exact hdone j hj
    · have hset : ∀ j, Function.update s.pc i TPC.haveLock j = TPC.refreshing
          ↔ s.pc j = TPC.refreshing := by
        intro j
        by_cases hji : j = i
        · subst hji
          rw [Function.update_same, h]
          constructor <;> (intro h'; cases h')
        · rw [Function.update_noteq hji]
      rcases hcount with ⟨h1, h2, h3⟩ | ⟨h1, h2, h3⟩ | ⟨h1, h2, h3⟩
      · exact Or.inl ⟨h1, h2, fun j hj => h3 j ((hset j).mp hj)⟩
      · exact Or.inr (Or.inl ⟨h1, h2, fun j hj => h3 j ((hset j).mp hj)⟩)
      · obtain ⟨j, hj⟩ := h3
        exact Or.inr (Or.inr ⟨h1, h2, j, (hset j).mpr hj⟩)
  | hit i h hv =>
    refine ⟨?_, ?_, ?_⟩
    · intro j hj
      by_cases hji : j = i
      · subst hji
        simp only [Function.update_same] at hj
        rcases hj with h' | h' <;> cases h'
      · simp only [Function.update_noteq hji] at hj
        have h1 := hlock j hj
        have h2 := hlock i (Or.inl h)
        rw [h1] at h2
        injection h2 with h2
        exact absurd h2 hji
    · intro j _
      exact hv
    · rcases hcount with ⟨_, h2, _⟩ | ⟨h1, h2, h3⟩ | ⟨_, h2, _⟩
      · rw [hv] at h2
        cases h2
      · refine Or.inr (Or.inl ⟨h1, h2, ?_⟩)
        intro j hj
        by_cases hji : j = i
        · subst hji
          simp only [Function.update_same] at hj
          cases hj
        · simp only [Function.update_noteq hji] at hj
          exact h3 j hj
      · rw [hv] at h2
        cases h2
  | miss i h hv =>
    refine ⟨?_, ?_, ?_⟩
    · intro j hj
      by_cases hji : j = i
      · subst hji
        exact hlock j (Or.inl h)
      · simp only [Function.update_noteq hji] at hj
        exact hlock j hj
    · intro j hj
      by_cases hji : j = i
      · subst hji
        simp only [Function.update_same] at hj
        cases hj
      · simp only [Function.update_noteq hji] at hj
        exact hdone j hj
    · rcases hcount with ⟨h1, h2, _⟩ | ⟨_, h2, _⟩ | ⟨_, _, h3⟩
      · refine Or.inr (Or.inr ⟨?_, h2, i, ?_⟩)
        · show s.requests + 1 = 1
          rw [h1]
        · simp only [Function.update_same]
      · rw [hv] at h2
        cases h2
      · obtain ⟨j, hj⟩ := h3
        have h1 := hlock j (Or.inr hj)
        have h2' := hlock i (Or.inl h)
        rw [h1] at h2'
        injection h2' with h2'
        subst h2'
        rw [h] at hj
        cases hj
  | refreshDone i h =>
    refine ⟨?_, ?_, ?_⟩
    · intro j hj
      by_cases hji : j = i
      · subst hji
        simp only [Function.update_same] at hj
        rcases hj with h' | h' <;> cases h'
      · simp only [Function.update_noteq hji] at hj
        have h1 := hlock j hj
        have h2 := hlock i (Or.inr h)
        rw [h1] at h2
        injection h2 with h2
        exact absurd h2 hji
    · intro j _
      rfl
    · rcases hcount with ⟨_, _, h3⟩ | ⟨_, _, h3⟩ | ⟨h1, _, _⟩
      · exact absurd h (h3 i)
      · exact absurd h (h3 i)
      · refine Or.inr (Or.inl ⟨h1, rfl, ?_⟩)
        intro j hj
        by_cases hji : j = i
        · subst hji
          simp only [Function.update_same] at hj
          cases hj
        · simp only [Function.update_noteq hji] at hj
          have ha := hlock j (Or.inr hj)
          have hb := hlock i (Or.inr h)
          rw [ha] at hb
          injection hb with hb
          exact hji hb

theorem tmInv_reachable {n : Nat} (s : TMState n) (hs : TMReachable n s) : TMInv s := by
  unfold TMReachable at hs
  induction hs with
  | refl =>
    refine ⟨?_, ?_, Or.inl ⟨rfl, rfl, ?_⟩⟩
    · intro i hi
      rcases hi with h' | h' <;> cases h'
    · intro i hi
      cases hi
    · intro i hi
      cases hi
  | tail _ hstep ih =>
    exact tmInv_step ih hstep

/-- C3: in the lock-serialized model of `get_access_token`, starting with no
valid cached credential, every interleaving of `n` concurrent callers keeps
at most one credential refresh in flight at any time (two threads in the
refreshing region coincide), and in any reachable state where all callers
have returned, exactly one credential-exchange request has been issued. -/
theorem claim_C3_token_single_refresh (n : Nat) (s : TMState n) (hs : TMReachable n s) :
    (∀ i j : Fin n, s.pc i = TPC.refreshing → s.pc j = TPC.refreshing → i = j)
    ∧ ((∀ i, s.pc i = TPC.finished) → 1 ≤ n → s.requests = 1) := by
  obtain ⟨hlock, hdone, hcount⟩ := tmInv_reachable s hs
  constructor
  · intro i j hi hj
    have h1 := hlock i (Or.inr hi)
    have h2 := hlock j (Or.inr hj)
    rw [h1] at h2
    exact Option.some.inj h2
  · intro hfin hn
    have hv : s.tokenValid = true := hdone ⟨0, hn⟩ (hfin ⟨0, hn⟩)
    rcases hcount with ⟨_, h2, _⟩ | ⟨h1, _, _⟩ | ⟨_, h2, _⟩
    · rw [hv] at h2
      cases h2
    · exact h1
    · rw [hv] at h2
      cases h2

theorem tmA7_reachable : TMReachable 2 tmA7 := by
  unfold TMReachable
  have s1 : TMStep (tmInit 2) tmA1 := TMStep.enter (tmInit 2) 0 rfl
  have s2 : TMStep tmA1 tmA2 := TMStep.lock tmA1 0 (by decide) rfl
  have s3 : TMStep tmA2 tmA3 := TMStep.miss tmA2 0 (by decide) rfl
  have s4 : TMStep tmA3 tmA4 := TMStep.refreshDone tmA3 0 (by decide)
  have s5 : TMStep tmA4 tmA5 := TMStep.enter tmA4 1 (by decide)
  have s6 : TMStep tmA5 tmA6 := TMStep.lock tmA5 1 (by decide) rfl
  have s7 : TMStep tmA6 tmA7 := TMStep.hit tmA6 1 (by decide) rfl
  exact Relation.ReflTransGen.head s1 (Relation.ReflTransGen.head s2
    (Relation.ReflTransGen.head s3 (Relation.ReflTransGen.head s4
      (Relation.ReflTransGen.head s5 (Relation.ReflTransGen.head s6
        (Relation.ReflTransGen.single s7))))))

theorem claim_C3_witness : tmA7.requests = 1 :=
  (claim_C3_token_single_refresh 2 tmA7 tmA7_reachable).2 (by decide) (by decide)
